import Mathlib

/-!
Shallow embedding of the notebook/kernel session manager `JupyterAPI`
(src/jupyterAPI.py) of the jupyterMCP repository, together with proofs
about the claims of its specification.

Modelling conventions:
* The external execution backend (nbclient `NotebookClient`) is modelled by
  an oracle `List ExecOutcome`: each invocation of `client.execute_cell`
  consumes one outcome (success with a list of output records, a
  `CellExecutionError`, or an `AssertionError` standing for a lost kernel
  connection).  An exhausted oracle denotes further executions that succeed
  with empty output.
* Python exceptions are modelled by the `PyRes` result type: `.ok` is a
  normal return, `.exn` a raised exception propagating to the caller.
* The notebook file on disk is the `disk` field of the session state; the
  notebook format is reduced to its ordered cell list.
* In the Python code, `self.original_cells` (once set) is the very same
  list object as `self.notebook.cells`: it is bound to it in
  `open_notebook`, at the end of `start_kernel`, and in the insert
  methods, and every other cell mutation (`del`, `append`, `insert`,
  output updates) happens in place on that shared list.  The value-level
  model makes this aliasing explicit: `setCells` (an in-place mutation of
  the shared list) updates both fields.
-/

namespace JupyterMCP

/-- Cell kind: `'code'` or `'markdown'` in nbformat. -/
inductive CellType
  | code
  | markdown
  deriving DecidableEq, Repr

/-- One nbformat output record of a code cell.  `executeResult` and
`displayData` carry their mime-typed payload mapping as an association
list. -/
inductive Output
  | stream (name : String) (text : String)
  | executeResult (data : List (String × String))
  | displayData (data : List (String × String))
  | err (ename : String) (evalue : String)
  deriving DecidableEq, Repr

/-- One notebook cell: kind, source text, output records, and the optional
`metadata.slideshow.slide_type` tag. -/
structure Cell where
  cell_type : CellType
  source : String
  outputs : List Output
  slideshow : Option String
  deriving DecidableEq, Repr

instance : Inhabited Cell := ⟨⟨.code, "", [], none⟩⟩

/-- The notebook document: its ordered cell list. -/
structure Notebook where
  cells : List Cell
  deriving DecidableEq, Repr

/-- State of a `JupyterAPI` session: the in-memory notebook, whether a
client/kernel exists, the `original_cells` backup reference, and the
content of the notebook file on disk (`none` = no file). -/
structure JState where
  notebook : Option Notebook
  client : Bool
  original_cells : Option (List Cell)
  disk : Option Notebook
  deriving DecidableEq, Repr

/-- A Python exception, as far as the code distinguishes exceptions. -/
inductive PyExc
  | valueError (msg : String)
  | cellExecutionError (msg : String)
  | assertionError
  deriving DecidableEq, Repr

/-- Result of a Python call: a normal return or a raised exception. -/
inductive PyRes (α : Type)
  | ok (a : α)
  | exn (e : PyExc)
  deriving DecidableEq, Repr

/-- Outcome of one `client.execute_cell` invocation, chosen by the backend
oracle. -/
inductive ExecOutcome
  | ok (outs : List Output)
  | cellError (msg : String) (outs : List Output)
  | connLost
  deriving DecidableEq, Repr

/-- Whether an oracle entry is a plain success. -/
def ExecOutcome.isOk : ExecOutcome → Bool
  | .ok _ => true
  | _ => false

/-- The text of `str(e)` for a modelled exception: a `CellExecutionError`
and a `ValueError` print their message, a bare `AssertionError` prints
as the empty string. -/
def excMsg : PyExc → String
  | .valueError m => m
  | .cellExecutionError m => m
  | .assertionError => ""

/-- The text a single output record contributes to
`get_cell_text_output`: stream text, or the `text/plain` payload of an
`execute_result` / `display_data` record when present. -/
def textPayload : Output → String
  | .stream _ t => t
  | .executeResult d => (d.lookup "text/plain").getD ""
  | .displayData d => (d.lookup "text/plain").getD ""
  | .err _ _ => ""

/-- Concatenation, in record order, of the text carried by a cell's
output records (the accumulation loop of `get_cell_text_output`). -/
def concatTextOutput (outs : List Output) : String :=
  outs.foldl (fun acc o => acc ++ textPayload o) ""

/-- Stop position of the Python slice `s[a:b]` for a list of length `n`:
a negative `b` counts from the end, and the result is clamped to
`[0, n]`. -/
def pySliceStop (n : Nat) (b : Int) : Nat :=
  if b < 0 then ((n : Int) + b).toNat else min b.toNat n

/-- The Python slice `s[a:b]` for `a : Nat` (already clamped) and an
arbitrary `b : Int`. -/
def pySlice (s : String) (a : Nat) (b : Int) : String :=
  String.mk (((s.data).drop a).take (pySliceStop s.data.length b - a))

/-- The Python suffix slice `s[a:]`. -/
def pyDrop (s : String) (a : Nat) : String :=
  String.mk ((s.data).drop a)

/-- Effective position of Python `list.insert(i, x)` on a list of length
`n`: negative indices count from the end and the result is clamped to
`[0, n]`. -/
def pyInsertPos (n : Nat) (i : Int) : Nat :=
  let j := if i < 0 then (n : Int) + i else i
  if j ≤ 0 then 0 else min j.toNat n

/-- The position at which `insert_and_execute_cell` places the new
cell: appended for `index = None`, otherwise wherever Python
`list.insert` puts it (clamped, never validated). -/
def insertIndexPos (n : Nat) (index : Option Int) : Nat :=
  match index with
  | none => n
  | some i => pyInsertPos n i

/-- Cell construction of `nbformat.v4.new_code_cell` /
`new_markdown_cell`: fresh cell with no outputs and no slideshow tag. -/
def newCellOf (k : CellType) (code : String) : Cell :=
  ⟨k, code, [], none⟩

/-- The `cell_type` strings accepted by the insert methods. -/
def parseCellType (ct : String) : Option CellType :=
  if ct = "code" then some .code
  else if ct = "markdown" then some .markdown
  else none

/-- An in-place mutation of the shared cell list: in Python,
`original_cells` (when set) aliases `notebook.cells`, so a mutation of
the list or of a cell object inside it is visible through both fields. -/
def setCells (st : JState) (nb : Notebook) (cells : List Cell) : JState :=
  { st with notebook := some { nb with cells := cells },
            original_cells := st.original_cells.map (fun _ => cells) }

/-- `JupyterAPI.save_notebook`: writes the in-memory notebook to its
path.  Returns `none` on success, an error string when no notebook is
open. -/
def save_notebook (st : JState) : Option String × JState :=
  match st.notebook with
  | none => (some "没有打开的笔记本或路径未指定", st)
  | some nb => (none, { st with disk := some nb })

/-- `JupyterAPI.start_kernel`: back up the cell list into
`original_cells` if not yet backed up, empty the cell list, tear down any
existing client (best effort), create a new client, execute the empty
notebook once to warm it up (zero cells, so the oracle is not consumed),
and restore the cell list from the backup. -/
def start_kernel (st : JState) : JState :=
  match st.notebook with
  | none => st
  | some nb =>
    let original := match st.original_cells with
      | none => nb.cells
      | some oc => oc
    -- notebook.cells := []; old client shut down and dropped; new client
    -- created; empty notebook executed; notebook.cells := original
    { st with notebook := some { nb with cells := original },
              original_cells := some original,
              client := true }

/-- One `client.execute_cell(cell, pos)` call on the cell at position
`pos`: consumes the next oracle outcome; a success or a
`CellExecutionError` stores the produced output records on the cell (in
place, hence through `setCells`), a lost connection raises
`AssertionError` without touching the cell. -/
def execCell (st : JState) (oracle : List ExecOutcome) (pos : Nat) :
    PyRes Unit × JState × List ExecOutcome :=
  match st.notebook with
  | none => (.exn .assertionError, st, oracle)
  | some nb =>
    let c := nb.cells.getD pos default
    match oracle.headD (.ok []) with
    | .ok outs =>
      (.ok (), setCells st nb (nb.cells.set pos { c with outputs := outs }), oracle.tail)
    | .cellError m outs =>
      (.exn (.cellExecutionError m),
        setCells st nb (nb.cells.set pos { c with outputs := outs }), oracle.tail)
    | .connLost => (.exn .assertionError, st, oracle.tail)

/-- `client.execute(notebook)`: nbclient's bulk execution, running the
code cells in order and stopping at the first raising cell.  Markdown
cells are kept untouched, and cells executed before a failure keep the
outputs they received. -/
def clientExecute : List Cell → List ExecOutcome →
    PyRes Unit × List Cell × List ExecOutcome
  | [], o => (.ok (), [], o)
  | c :: cs, o =>
    match c.cell_type with
    | .markdown =>
      let (r, cs', o') := clientExecute cs o
      (r, c :: cs', o')
    | .code =>
      match o.headD (.ok []) with
      | .ok outs =>
        let (r, cs', o') := clientExecute cs o.tail
        (r, { c with outputs := outs } :: cs', o')
      | .cellError m outs =>
        (.exn (.cellExecutionError m), { c with outputs := outs } :: cs, o.tail)
      | .connLost => (.exn .assertionError, c :: cs, o.tail)

/-- The windowing step of `get_cell_text_output`: a negative start is
clamped to 0, a start at or past the end yields the empty string, and
otherwise the Python slice `text[start:start+length]` (`text[start:]`
when `length` is `None`) is taken. -/
def outputWindow (text : String) (start_index : Int) (length : Option Int) : String :=
  if (text.length : Int) ≤ (if start_index < 0 then 0 else start_index) then ""
  else match length with
    | none => pyDrop text start_index.toNat
    | some l => pySlice text start_index.toNat ((start_index.toNat : Int) + l)

/-- `JupyterAPI.get_cell_text_output(cell_index, start_index, length)`:
validation errors are raised; a non-code cell yields the empty string;
otherwise a header line reporting the full concatenated length is
followed by the window selected by `outputWindow`. -/
def get_cell_text_output (st : JState) (cell_index : Int) (start_index : Int)
    (length : Option Int) : PyRes String :=
  match st.notebook with
  | none => .exn (.valueError "没有打开的笔记本")
  | some nb =>
    if cell_index < 0 ∨ (nb.cells.length : Int) ≤ cell_index then
      .exn (.valueError ("单元格索引超出范围: " ++ toString cell_index))
    else if (nb.cells.getD cell_index.toNat default).cell_type ≠ .code then .ok ""
    else
      .ok ("总长度: " ++
        toString (concatTextOutput (nb.cells.getD cell_index.toNat default).outputs).length ++
        "\n" ++
        outputWindow (concatTextOutput (nb.cells.getD cell_index.toNat default).outputs)
          start_index length)

/-- `JupyterAPI.run_cell(cell_index)`: validations raise `ValueError`
before any kernel work; the kernel is started on demand; on success the
notebook is saved and the cell's text output returned; a
`CellExecutionError` is returned as a formatted string; an
`AssertionError` (lost connection) triggers one kernel restart and one
retry, whose failure of any kind is returned as a formatted string. -/
def run_cell (st : JState) (oracle : List ExecOutcome) (cell_index : Int) :
    PyRes String × JState × List ExecOutcome :=
  match st.notebook with
  | none => (.exn (.valueError "没有打开的笔记本"), st, oracle)
  | some nb =>
    if cell_index < 0 ∨ (nb.cells.length : Int) ≤ cell_index then
      (.exn (.valueError ("单元格索引超出范围: " ++ toString cell_index)), st, oracle)
    else if (nb.cells.getD cell_index.toNat default).cell_type ≠ .code then
      (.exn (.valueError ("单元格不是代码类型: " ++ toString cell_index)), st, oracle)
    else
      let st1 := if st.client then st else start_kernel st
      match execCell st1 oracle cell_index.toNat with
      | (.ok (), st2, o2) =>
        let (_, st3) := save_notebook st2
        match get_cell_text_output st3 cell_index 0 (some 3000) with
        | .ok s => (.ok s, st3, o2)
        | .exn e => (.exn e, st3, o2)
      | (.exn (.cellExecutionError m), st2, o2) =>
        (.ok ("单元格执行错误: " ++ m), st2, o2)
      | (.exn .assertionError, st2, o2) =>
        let st3 := start_kernel st2
        match execCell st3 o2 cell_index.toNat with
        | (.ok (), st4, o4) =>
          let (_, st5) := save_notebook st4
          match get_cell_text_output st5 cell_index 0 (some 3000) with
          | .ok s => (.ok s, st5, o4)
          | .exn e => (.exn e, st5, o4)
        | (.exn e, st4, o4) =>
          (.ok ("重试执行单元格失败: " ++ excMsg e), st4, o4)
      | (.exn e, st2, o2) => (.exn e, st2, o2)

/-- The result dictionary of `execute_cells_by_indices`. -/
structure ExecIndicesResult where
  success : Bool
  last_index : Option Int
  error : Option String
  warnings : List (Int × String)
  output : Option String
  deriving DecidableEq, Repr

/-- The stderr-stream warnings collected from the outputs of the cell
just executed at index `idx`. -/
def collectStderr (idx : Int) (outs : List Output) : List (Int × String) :=
  outs.filterMap (fun o => match o with
    | .stream n t => if n = "stderr" then some (idx, t) else none
    | _ => none)

/-- The main loop of `execute_cells_by_indices`: walks the index list,
breaking with `success := false` at the first out-of-range index or the
first raising execution, skipping non-code cells, and collecting stderr
warnings after each successful execution.  The extra `audit` component
records, for the proofs, the indices on which `client.execute_cell` was
actually invoked. -/
def execIndicesLoop (st : JState) (oracle : List ExecOutcome)
    (indices : List Int) (acc : ExecIndicesResult) (audit : List Int) :
    ExecIndicesResult × JState × List ExecOutcome × List Int :=
  match indices with
  | [] => (acc, st, oracle, audit)
  | idx :: rest =>
    match st.notebook with
    | none => (acc, st, oracle, audit)
    | some nb =>
      if idx < 0 ∨ (nb.cells.length : Int) ≤ idx then
        ({ acc with success := false,
                    error := some ("单元格索引超出范围: " ++ toString idx) },
          st, oracle, audit)
      else
        let pos := idx.toNat
        let cell := nb.cells.getD pos default
        if cell.cell_type ≠ .code then
          execIndicesLoop st oracle rest acc audit
        else
          match execCell st oracle pos with
          | (.ok (), st1, o1) =>
            let cell1 := (match st1.notebook with
              | some nb1 => nb1.cells.getD pos default
              | none => default)
            let acc1 := { acc with
              last_index := some idx,
              warnings := acc.warnings ++ collectStderr idx cell1.outputs }
            execIndicesLoop st1 o1 rest acc1 (audit ++ [idx])
          | (.exn e, st1, o1) =>
            ({ acc with success := false,
                        error := some ("执行单元格 " ++ toString idx ++ " 时出错: " ++ excMsg e),
                        last_index := some idx },
              st1, o1, audit ++ [idx])

/-- The epilogue of `execute_cells_by_indices` on the loop's result
`(r, st1, o1, audit)`: always save the notebook (the save result is
ignored) and, when some cell was executed, fetch the text output of the
last executed cell with the default window. -/
def execIndicesFinish
    (q : ExecIndicesResult × JState × List ExecOutcome × List Int) :
    PyRes (ExecIndicesResult × List Int) × JState × List ExecOutcome :=
  let st2 := (save_notebook q.2.1).2
  match q.1.last_index with
  | none => (.ok (q.1, q.2.2.2), st2, q.2.2.1)
  | some li =>
    match get_cell_text_output st2 li 0 (some 3000) with
    | .ok s => (.ok ({ q.1 with output := some s }, q.2.2.2), st2, q.2.2.1)
    | .exn e => (.exn e, st2, q.2.2.1)

/-- `JupyterAPI.execute_cells_by_indices(indices)`: raises when no
notebook is open, starts the kernel on demand, runs the loop, always
saves the notebook afterwards, and fetches the text output of the last
executed cell (with the default window) when one exists. -/
def execute_cells_by_indices (st : JState) (oracle : List ExecOutcome)
    (indices : List Int) :
    PyRes (ExecIndicesResult × List Int) × JState × List ExecOutcome :=
  match st.notebook with
  | none => (.exn (.valueError "没有打开的笔记本"), st, oracle)
  | some _ =>
    let st0 := if st.client then st else start_kernel st
    let init : ExecIndicesResult :=
      { success := true, last_index := none, error := none,
        warnings := [], output := none }
    execIndicesFinish (execIndicesLoop st0 oracle indices init [])

/-- `JupyterAPI.run_all_cells()`: bulk-executes the whole notebook.  On
success the notebook is saved and `None` returned; a
`CellExecutionError` is returned as a formatted string without saving;
an `AssertionError` (lost connection) triggers one kernel restart and
one bulk re-run, saved on success, with any failure of the retry
returned as a formatted string without saving. -/
def run_all_cells (st : JState) (oracle : List ExecOutcome) :
    PyRes (Option String) × JState × List ExecOutcome :=
  match st.notebook with
  | none => (.ok (some "没有打开的笔记本"), st, oracle)
  | some _ =>
    let st0 := if st.client then st else start_kernel st
    match st0.notebook with
    | none => (.exn .assertionError, st0, oracle)
    | some nb =>
      match clientExecute nb.cells oracle with
      | (.ok (), cells1, o1) =>
        let st1 := setCells st0 nb cells1
        let (sr, st2) := save_notebook st1
        match sr with
        | some m => (.ok (some m), st2, o1)
        | none => (.ok none, st2, o1)
      | (.exn (.cellExecutionError m), cells1, o1) =>
        (.ok (some ("单元格执行错误: " ++ m)), setCells st0 nb cells1, o1)
      | (.exn .assertionError, cells1, o1) =>
        let st1 := setCells st0 nb cells1
        let st2 := start_kernel st1
        match st2.notebook with
        | none => (.exn .assertionError, st2, o1)
        | some nb2 =>
          match clientExecute nb2.cells o1 with
          | (.ok (), cells2, o2) =>
            let st3 := setCells st2 nb2 cells2
            let (sr, st4) := save_notebook st3
            match sr with
            | some m => (.ok (some m), st4, o2)
            | none => (.ok none, st4, o2)
          | (.exn e, cells2, o2) =>
            (.ok (some ("重试执行单元格失败: " ++ excMsg e)), setCells st2 nb2 cells2, o2)
      | (.exn e, cells1, o1) => (.exn e, setCells st0 nb cells1, o1)

/-- `JupyterAPI.insert_cell(code, cell_type, index)`: insert without
executing.  Every failure, including validation failures (unknown cell
type, index outside `[0, len]`), is returned as an error string, not
raised; a valid insert rebinds `original_cells` to the new list, saves,
and returns the new cell's index as a string. -/
def insert_cell (st : JState) (code : String) (cell_type : String)
    (index : Option Int) : String × JState :=
  match st.notebook with
  | none => ("没有打开的笔记本", st)
  | some nb =>
    match parseCellType cell_type with
    | none => ("不支持的单元格类型: " ++ cell_type, st)
    | some k =>
      let cell := newCellOf k code
      match index with
      | none =>
        let cells1 := nb.cells ++ [cell]
        let st1 := { st with notebook := some { nb with cells := cells1 },
                             original_cells := some cells1 }
        let (sr, st2) := save_notebook st1
        match sr with
        | some m => (m, st2)
        | none => (toString (nb.cells.length : Int), st2)
      | some i =>
        if i < 0 ∨ (nb.cells.length : Int) < i then
          ("无效的索引位置: " ++ toString i, st)
        else
          let cells1 := nb.cells.insertIdx i.toNat cell
          let st1 := { st with notebook := some { nb with cells := cells1 },
                               original_cells := some cells1 }
          let (sr, st2) := save_notebook st1
          match sr with
          | some m => (m, st2)
          | none => (toString i, st2)

/-- `JupyterAPI.insert_and_execute_cell(code, cell_type, index)`: starts
the kernel on demand, raises `ValueError` on an unknown cell type,
inserts the new cell (append for `index = None`, otherwise Python
`list.insert`, which clamps an out-of-range index instead of
validating it), and for a code cell executes it with the same
restart-once-on-`AssertionError` policy as `run_cell`, swallowing both a
`CellExecutionError` and a failure of the retry.  Afterwards
`original_cells` is rebound, the notebook saved, and the (possibly
executed) cell returned. -/
def insert_and_execute_cell (st : JState) (oracle : List ExecOutcome)
    (code : String) (cell_type : String) (index : Option Int) :
    PyRes Cell × JState × List ExecOutcome :=
  match st.notebook with
  | none => (.exn (.valueError "没有打开的笔记本"), st, oracle)
  | some _ =>
    let st0 := if st.client then st else start_kernel st
    match parseCellType cell_type with
    | none => (.exn (.valueError ("不支持的单元格类型: " ++ cell_type)), st0, oracle)
    | some k =>
      match st0.notebook with
      | none => (.exn .assertionError, st0, oracle)
      | some nb =>
        let cell := newCellOf k code
        let pos := insertIndexPos nb.cells.length index
        let st1 := setCells st0 nb (nb.cells.insertIdx pos cell)
        let (st2, o2) :=
          match k with
          | .markdown => (st1, oracle)
          | .code =>
            match execCell st1 oracle pos with
            | (.ok (), sta, oa) => (sta, oa)
            | (.exn (.cellExecutionError _), sta, oa) => (sta, oa)
            | (.exn .assertionError, sta, oa) =>
              let stb := start_kernel sta
              match execCell stb oa pos with
              | (_, stc, oc) => (stc, oc)
            | (.exn _, sta, oa) => (sta, oa)
        match st2.notebook with
        | none => (.exn .assertionError, st2, o2)
        | some nb2 =>
          let st3 := { st2 with original_cells := some nb2.cells }
          let (_, st4) := save_notebook st3
          (.ok (nb2.cells.getD pos default), st4, o2)

/-- `JupyterAPI.delete_cell(cell_index)`: removes the cell in place
(hence visible through the aliased `original_cells`), returning an error
string on validation failure, and does not save the notebook. -/
def delete_cell (st : JState) (cell_index : Int) : Option String × JState :=
  match st.notebook with
  | none => (some "没有打开的笔记本", st)
  | some nb =>
    if cell_index < 0 ∨ (nb.cells.length : Int) ≤ cell_index then
      (some ("单元格索引超出范围: " ++ toString cell_index), st)
    else
      (none, setCells st nb (nb.cells.eraseIdx cell_index.toNat))

/-- The valid slideshow types of `set_slideshow_type` (besides `None`). -/
def valid_slide_types : List String :=
  ["slide", "subslide", "fragment", "skip", "notes"]

/-- `JupyterAPI.set_slideshow_type(cell_index, slide_type)`: every
failure, including validation failures, is returned as an error string;
a valid call updates the cell's slideshow metadata in place and saves. -/
def set_slideshow_type (st : JState) (cell_index : Int)
    (slide_type : Option String) : Option String × JState :=
  match st.notebook with
  | none => (some "没有打开的笔记本", st)
  | some nb =>
    if cell_index < 0 ∨ (nb.cells.length : Int) ≤ cell_index then
      (some ("单元格索引超出范围: " ++ toString cell_index), st)
    else
      match slide_type with
      | some t =>
        if valid_slide_types.contains t then
          let c := nb.cells.getD cell_index.toNat default
          let st1 := setCells st nb
            (nb.cells.set cell_index.toNat { c with slideshow := some t })
          save_notebook st1
        else
          (some ("无效的幻灯片类型: " ++ t ++
            "，有效类型为: slide, subslide, fragment, skip, notes, None"), st)
      | none =>
        let c := nb.cells.getD cell_index.toNat default
        let st1 := setCells st nb
          (nb.cells.set cell_index.toNat { c with slideshow := none })
        save_notebook st1

/-- `JupyterAPI.open_notebook(path)` for the session's own path (as
called from `__init__`): when the file exists it is read and
`original_cells` bound to its cells; otherwise a fresh empty notebook is
created, `original_cells` set to `[]`, and the empty notebook saved.  In
both cases the kernel is then started. -/
def open_notebook (st : JState) : JState :=
  match st.disk with
  | some nb =>
    start_kernel { st with notebook := some nb, original_cells := some nb.cells }
  | none =>
    let nb : Notebook := ⟨[]⟩
    start_kernel { st with notebook := some nb, original_cells := some ([] : List Cell),
                           disk := some nb }

/-- `JupyterAPI.__init__(notebook_path, init_code, isnew)`: with
`isnew = True` an existing file at the path is deleted first; then the
path is opened (creating a fresh empty persisted notebook when no file
exists), and a nonempty `init_code` is inserted and executed at index
0.  `notebook_fs` is the file content at the path before construction. -/
def JupyterAPI_mk (isnew : Bool) (notebook_fs : Option Notebook)
    (init_code : String) (oracle : List ExecOutcome) :
    JState × List ExecOutcome :=
  let st0 : JState :=
    { notebook := none, client := false, original_cells := none,
      disk := if isnew then none else notebook_fs }
  let st1 := open_notebook st0
  if init_code = "" then (st1, oracle)
  else
    match insert_and_execute_cell st1 oracle init_code "code" (some 0) with
    | (_, st2, o2) => (st2, o2)

/-!  Supporting lemmas shared by the claim theorems. -/

/-- Alignment of the backup with the notebook: in Python,
`original_cells` is either still unset or the very list object
`notebook.cells`, which holds in every reachable state. -/
def BackupAligned (s : JState) (nb : Notebook) : Prop :=
  s.original_cells = none ∨ s.original_cells = some nb.cells

theorem start_kernel_aligned (s : JState) (nb : Notebook)
    (hnb : s.notebook = some nb) (hal : BackupAligned s nb) :
    start_kernel s = { s with client := true, original_cells := some nb.cells } := by
  unfold start_kernel
  rw [hnb]
  rcases hal with h | h <;> rw [h]

theorem start_kernel_disk (s : JState) : (start_kernel s).disk = s.disk := by
  unfold start_kernel
  cases h : s.notebook <;> rfl

theorem start_kernel_notebook (s : JState) (nb : Notebook)
    (hnb : s.notebook = some nb) :
    ∃ cs, (start_kernel s).notebook = some { nb with cells := cs } := by
  unfold start_kernel
  rw [hnb]
  exact ⟨_, rfl⟩

theorem save_notebook_eq (s : JState) (nb : Notebook) (hnb : s.notebook = some nb) :
    save_notebook s = (none, { s with disk := some nb }) := by
  unfold save_notebook
  rw [hnb]

theorem get_cell_text_output_isOk (s : JState) (nb : Notebook) (i : Int)
    (hnb : s.notebook = some nb) (h0 : 0 ≤ i) (hi : i < (nb.cells.length : Int))
    (start : Int) (limit : Option Int) :
    ∃ out, get_cell_text_output s i start limit = .ok out := by
  obtain ⟨nbo, cl, oc, dk⟩ := s
  dsimp only at hnb
  subst hnb
  unfold get_cell_text_output
  dsimp only
  rw [if_neg (show ¬(i < 0 ∨ (nb.cells.length : Int) ≤ i) by omega)]
  split
  · exact ⟨_, rfl⟩
  · exact ⟨_, rfl⟩

theorem headD_of_all_isOk (o : List ExecOutcome)
    (h : o.all ExecOutcome.isOk = true) :
    ∃ outs, o.headD (.ok []) = .ok outs ∧ o.tail.all ExecOutcome.isOk = true := by
  cases o with
  | nil => exact ⟨[], rfl, rfl⟩
  | cons a as =>
    simp only [List.all_cons, Bool.and_eq_true] at h
    cases a with
    | ok outs => exact ⟨outs, rfl, h.2⟩
    | cellError m outs => simp [ExecOutcome.isOk] at h
    | connLost => simp [ExecOutcome.isOk] at h

theorem mem_take_getD (l : List Int) (j : Nat) (x : Int) (hx : x ∈ l.take j) :
    ∃ k, k < j ∧ k < l.length ∧ l.getD k 0 = x := by
  induction l generalizing j with
  | nil => simp at hx
  | cons a as ih =>
    cases j with
    | zero => simp at hx
    | succ j1 =>
      rw [List.take_succ_cons] at hx
      rcases List.mem_cons.mp hx with h | h
      · exact ⟨0, Nat.succ_pos _, by simp, by simp [h]⟩
      · obtain ⟨k, hk1, hk2, hk3⟩ := ih j1 h
        refine ⟨k + 1, by omega, by simp only [List.length_cons]; omega, ?_⟩
        rw [List.getD_cons_succ]
        exact hk3

theorem insertIdx_set_self {α : Type} (l : List α) (p : Nat) (c c' : α)
    (hp : p ≤ l.length) :
    (l.insertIdx p c).set p c' = l.insertIdx p c' := by
  induction l generalizing p with
  | nil =>
    have : p = 0 := by simpa using hp
    subst this
    rfl
  | cons a as ih =>
    cases p with
    | zero => rfl
    | succ p1 =>
      rw [List.insertIdx_succ_cons, List.insertIdx_succ_cons, List.set_cons_succ]
      rw [ih p1 (by simpa using hp)]

theorem getD_insertIdx_self {α : Type} [Inhabited α] (l : List α) (p : Nat)
    (c : α) (hp : p ≤ l.length) :
    (l.insertIdx p c).getD p default = c := by
  rw [List.getD_eq_getElem _ _ (by rw [List.length_insertIdx p l hp]; omega)]
  exact List.getElem_insertIdx_self l c p hp

theorem pyInsertPos_le (n : Nat) (i : Int) : pyInsertPos n i ≤ n := by
  simp only [pyInsertPos]
  split <;> split <;> omega

theorem insertIndexPos_le (n : Nat) (idx : Option Int) : insertIndexPos n idx ≤ n := by
  cases idx with
  | none => exact Nat.le_refl n
  | some i => exact pyInsertPos_le n i

theorem getD_set_self {α : Type} [Inhabited α] (l : List α) (p : Nat) (a : α)
    (hp : p < l.length) :
    (l.set p a).getD p default = a := by
  rw [List.getD_eq_getElem _ _ (by simp only [List.length_set]; omega)]
  exact List.getElem_set_self _

theorem get_cell_text_output_code (s : JState) (nb : Notebook) (i : Int)
    (hnb : s.notebook = some nb) (h0 : 0 ≤ i) (hi : i < (nb.cells.length : Int))
    (hcode : (nb.cells.getD i.toNat default).cell_type = .code)
    (start : Int) (limit : Option Int) :
    get_cell_text_output s i start limit =
      .ok ("总长度: " ++
        toString (concatTextOutput (nb.cells.getD i.toNat default).outputs).length ++
        "\n" ++
        outputWindow (concatTextOutput (nb.cells.getD i.toNat default).outputs)
          start limit) := by
  obtain ⟨nbo, cl, oc, dk⟩ := s
  dsimp only at hnb
  subst hnb
  unfold get_cell_text_output
  dsimp only
  rw [if_neg (show ¬(i < 0 ∨ (nb.cells.length : Int) ≤ i) by omega)]
  rw [if_neg (show ¬((nb.cells.getD i.toNat default).cell_type ≠ CellType.code) from
    fun hne => hne hcode)]

theorem get_cell_text_output_ne_exn (s : JState) (nb : Notebook) (i : Int)
    (hnb : s.notebook = some nb) (h0 : 0 ≤ i) (hi : i < (nb.cells.length : Int))
    (start : Int) (limit : Option Int) (e : PyExc) :
    get_cell_text_output s i start limit ≠ .exn e := by
  obtain ⟨out, hout⟩ := get_cell_text_output_isOk s nb i hnb h0 hi start limit
  rw [hout]
  exact fun hc => PyRes.noConfusion hc

theorem take_window {α : Type} (xs : List α) (a l : Nat) :
    (xs.drop a).take (min (a + l) xs.length - a) = (xs.drop a).take l := by
  rw [List.take_eq_take]
  simp only [List.length_drop]
  omega

theorem save_notebook_preserves_notebook (s : JState) :
    (save_notebook s).2.notebook = s.notebook := by
  obtain ⟨nbo, cl, oc, dk⟩ := s
  unfold save_notebook
  cases nbo <;> rfl

/-- The loop of `execute_cells_by_indices` on an index list whose entry
at position `j` is the first out-of-range one: when every consulted
backend outcome is a success, the loop stops there with `success :=
false` and the message naming that index, `client.execute_cell` is
invoked only on indices among the first `j` entries, `last_index` is
either untouched or one of the first `j` entries, and the cell count is
unchanged. -/
theorem execIndicesLoop_oor (indices : List Int) (j : Nat) (st : JState)
    (nb : Notebook) (oracle : List ExecOutcome) (acc : ExecIndicesResult)
    (audit : List Int)
    (hnb : st.notebook = some nb)
    (hok : oracle.all ExecOutcome.isOk = true)
    (hj : j < indices.length)
    (hoor : indices.getD j 0 < 0 ∨ (nb.cells.length : Int) ≤ indices.getD j 0)
    (hbefore : ∀ k, k < j → 0 ≤ indices.getD k 0 ∧
      indices.getD k 0 < (nb.cells.length : Int)) :
    (execIndicesLoop st oracle indices acc audit).1.success = false ∧
    (execIndicesLoop st oracle indices acc audit).1.error =
      some ("单元格索引超出范围: " ++ toString (indices.getD j 0)) ∧
    (∀ x ∈ (execIndicesLoop st oracle indices acc audit).2.2.2,
      x ∈ audit ∨ x ∈ indices.take j) ∧
    ((execIndicesLoop st oracle indices acc audit).1.last_index = acc.last_index ∨
      ∃ li, (execIndicesLoop st oracle indices acc audit).1.last_index = some li ∧
        li ∈ indices.take j) ∧
    (∃ nb1, (execIndicesLoop st oracle indices acc audit).2.1.notebook = some nb1 ∧
      nb1.cells.length = nb.cells.length) := by
  induction indices generalizing j st nb oracle acc audit with
  | nil => simp at hj
  | cons idx rest ih =>
    obtain ⟨nbo, cl, oc, dk⟩ := st
    dsimp only at hnb
    subst hnb
    cases j with
    | zero =>
      rw [List.getD_cons_zero] at hoor
      unfold execIndicesLoop
      dsimp only
      rw [if_pos hoor]
      refine ⟨rfl, ?_, fun x hx => Or.inl hx, Or.inl rfl, ⟨nb, rfl, rfl⟩⟩
      rw [List.getD_cons_zero]
    | succ j1 =>
      have h0 := hbefore 0 (Nat.succ_pos _)
      rw [List.getD_cons_zero] at h0
      rw [List.getD_cons_succ] at hoor
      have hj1 : j1 < rest.length := by
        simp only [List.length_cons] at hj
        omega
      have hbefore1 : ∀ k, k < j1 → 0 ≤ rest.getD k 0 ∧
          rest.getD k 0 < (nb.cells.length : Int) := by
        intro k hk
        have h2 := hbefore (k + 1) (by omega)
        rwa [List.getD_cons_succ] at h2
      unfold execIndicesLoop
      dsimp only
      rw [if_neg (show ¬(idx < 0 ∨ (nb.cells.length : Int) ≤ idx) by omega)]
      by_cases hcta : (nb.cells.getD idx.toNat default).cell_type ≠ CellType.code
      · rw [if_pos hcta]
        obtain ⟨c1, c2, c3, c4, c5⟩ :=
          ih j1 ⟨some nb, cl, oc, dk⟩ nb oracle acc audit rfl hok hj1 hoor hbefore1
        rw [List.getD_cons_succ, List.take_succ_cons]
        refine ⟨c1, c2, ?_, ?_, c5⟩
        · intro x hx
          rcases c3 x hx with h | h
          · exact Or.inl h
          · exact Or.inr (List.mem_cons_of_mem _ h)
        · rcases c4 with h | ⟨li, hli, hmem⟩
          · exact Or.inl h
          · exact Or.inr ⟨li, hli, List.mem_cons_of_mem _ hmem⟩
      · rw [if_neg hcta]
        obtain ⟨outs, hhead, htail⟩ := headD_of_all_isOk oracle hok
        set CU : Cell := { nb.cells.getD idx.toNat default with outputs := outs }
          with hCU
        set CS : List Cell := nb.cells.set idx.toNat CU with hCS
        have hexec : execCell ⟨some nb, cl, oc, dk⟩ oracle idx.toNat =
            (.ok (), setCells ⟨some nb, cl, oc, dk⟩ nb CS, oracle.tail) := by
          unfold execCell
          dsimp only
          rw [hhead]
        rw [hexec]
        dsimp only [setCells]
        have hlenCS : CS.length = nb.cells.length := by
          rw [hCS]
          exact List.length_set _ _ _
        set ACC1 : ExecIndicesResult := { acc with last_index := some idx, warnings := acc.warnings ++ collectStderr idx (CS.getD idx.toNat default).outputs } with hACC1
        obtain ⟨c1, c2, c3, c4, c5⟩ :=
          ih j1 ⟨some { nb with cells := CS }, cl, oc.map (fun _ => CS), dk⟩
            { nb with cells := CS } oracle.tail ACC1
            (audit ++ [idx]) rfl htail hj1
            (show rest.getD j1 0 < 0 ∨ (CS.length : Int) ≤ rest.getD j1 0 by
              rw [hlenCS]
              exact hoor)
            (show ∀ k, k < j1 → 0 ≤ rest.getD k 0 ∧
                rest.getD k 0 < (CS.length : Int) by
              rw [hlenCS]
              exact hbefore1)
        rw [List.getD_cons_succ, List.take_succ_cons]
        refine ⟨c1, c2, ?_, ?_, ?_⟩
        · intro x hx
          rcases c3 x hx with h | h
          · rcases List.mem_append.mp h with h2 | h2
            · exact Or.inl h2
            · rw [List.mem_singleton] at h2
              subst h2
              exact Or.inr (List.mem_cons_self _ _)
          · exact Or.inr (List.mem_cons_of_mem _ h)
        · rcases c4 with h | ⟨li, hli, hmem⟩
          · exact Or.inr ⟨idx, h, List.mem_cons_self _ _⟩
          · exact Or.inr ⟨li, hli, List.mem_cons_of_mem _ hmem⟩
        · obtain ⟨nb1, hnb1, hlen1⟩ := c5
          refine ⟨nb1, hnb1, ?_⟩
          rw [hlen1]
          exact hlenCS

/-- The epilogue always produces a normal result whose `success`,
`error` and audit components are those of the loop, whenever
`last_index` is absent or in range. -/
theorem execIndicesFinish_spec
    (q : ExecIndicesResult × JState × List ExecOutcome × List Int)
    (nb1 : Notebook) (hnb1 : q.2.1.notebook = some nb1)
    (hlast : q.1.last_index = none ∨
      ∃ li, q.1.last_index = some li ∧ 0 ≤ li ∧ li < (nb1.cells.length : Int)) :
    ∃ out, (execIndicesFinish q).1 = .ok ({ q.1 with output := out }, q.2.2.2) := by
  obtain ⟨r, st1, o1, audit⟩ := q
  obtain ⟨rs, rli, rer, rwn, ro⟩ := r
  dsimp only at hnb1 hlast ⊢
  unfold execIndicesFinish
  dsimp only
  rcases hlast with h | ⟨li, hli, h0, hi⟩
  · subst h
    exact ⟨ro, rfl⟩
  · subst hli
    dsimp only
    have hnb2 : ((save_notebook st1).2).notebook = some nb1 := by
      rw [save_notebook_preserves_notebook]
      exact hnb1
    split
    · exact ⟨_, rfl⟩
    · next e heq =>
        exact absurd heq
          (get_cell_text_output_ne_exn _ nb1 li hnb2 h0 hi 0 (some 3000) e)

/-!  Claim theorems. -/

/-- C4: `start_kernel` leaves the document's cell list unchanged: after
the bring-up sequence (snapshot into the backup, empty the list, tear
down and recreate the connection, execute the empty document, restore
from backup) the cells equal the cells held immediately before the
call.  The `BackupAligned` hypothesis is the Python aliasing invariant
(`original_cells`, once set, is the same list object as
`notebook.cells`). -/
theorem start_kernel_preserves_cells (st : JState) (nb : Notebook)
    (hnb : st.notebook = some nb) (hal : BackupAligned st nb) :
    (start_kernel st).notebook = some nb ∧
    start_kernel st = { st with client := true, original_cells := some nb.cells } := by
  have h := start_kernel_aligned st nb hnb hal
  exact ⟨by rw [h]; exact hnb, h⟩

theorem start_kernel_preserves_cells_witness :
    (start_kernel ⟨some ⟨[⟨.code, "x=1", [], none⟩]⟩, false,
        some [⟨.code, "x=1", [], none⟩], none⟩).notebook =
      some ⟨[⟨.code, "x=1", [], none⟩]⟩ ∧
    start_kernel ⟨some ⟨[⟨.code, "x=1", [], none⟩]⟩, false,
        some [⟨.code, "x=1", [], none⟩], none⟩ =
      { (⟨some ⟨[⟨.code, "x=1", [], none⟩]⟩, false,
          some [⟨.code, "x=1", [], none⟩], none⟩ : JState) with
        client := true, original_cells := some [⟨.code, "x=1", [], none⟩] } :=
  start_kernel_preserves_cells _ _ rfl (Or.inr rfl)

/-- Sample cell shared by the concrete witnesses below. -/
def wCell : Cell := ⟨.code, "print(1)", [], none⟩

/-- Sample one-cell session state shared by the concrete witnesses. -/
def wState : JState := ⟨some ⟨[wCell]⟩, true, some [wCell], some ⟨[wCell]⟩⟩

/-- C7: `insert_cell` with `index = None` appends — the new cell ends up
at position `len(cells)` as measured before the insert — and persists
the grown list; an explicit index outside `[0, len(cells)]` fails
validation with an error string, leaving the document and the disk
untouched. -/
theorem insert_cell_append_or_reject (st : JState) (nb : Notebook)
    (code ct : String) (k : CellType)
    (hnb : st.notebook = some nb) (hk : parseCellType ct = some k) :
    (insert_cell st code ct none =
      (toString (nb.cells.length : Int),
       { st with notebook := some ⟨nb.cells ++ [newCellOf k code]⟩,
                 original_cells := some (nb.cells ++ [newCellOf k code]),
                 disk := some ⟨nb.cells ++ [newCellOf k code]⟩ })) ∧
    ((nb.cells ++ [newCellOf k code]).getD nb.cells.length default = newCellOf k code) ∧
    (∀ i : Int, (i < 0 ∨ (nb.cells.length : Int) < i) →
      insert_cell st code ct (some i) = ("无效的索引位置: " ++ toString i, st)) := by
  obtain ⟨nbo, cl, oc, dk⟩ := st
  dsimp only at hnb
  subst hnb
  refine ⟨?_, ?_, ?_⟩
  · unfold insert_cell save_notebook
    dsimp only
    rw [hk]
  · rw [List.getD_eq_getElem _ _ (by simp)]
    exact List.getElem_concat_length _ _ _ rfl _
  · intro i hi
    unfold insert_cell
    dsimp only
    rw [hk]
    dsimp only
    rw [if_pos hi]

theorem insert_cell_append_or_reject_witness :
    (insert_cell wState "y=2" "code" none =
      (toString (([wCell] : List Cell).length : Int),
       { wState with notebook := some ⟨[wCell] ++ [newCellOf .code "y=2"]⟩,
                     original_cells := some ([wCell] ++ [newCellOf .code "y=2"]),
                     disk := some ⟨[wCell] ++ [newCellOf .code "y=2"]⟩ })) ∧
    (([wCell] ++ [newCellOf .code "y=2"]).getD ([wCell] : List Cell).length default =
      newCellOf .code "y=2") ∧
    (∀ i : Int, (i < 0 ∨ (([wCell] : List Cell).length : Int) < i) →
      insert_cell wState "y=2" "code" (some i) = ("无效的索引位置: " ++ toString i, wState)) :=
  insert_cell_append_or_reject wState ⟨[wCell]⟩ "y=2" "code" .code rfl rfl

/-- C9: `delete_cell` removes the cell from the in-memory document but
does not write to storage — the disk is unchanged — and a subsequent
`save_notebook` persists the deletion. -/
theorem delete_cell_not_persisted (st : JState) (nb : Notebook) (i : Int)
    (hnb : st.notebook = some nb) (h0 : 0 ≤ i) (hi : i < (nb.cells.length : Int)) :
    delete_cell st i = (none, setCells st nb (nb.cells.eraseIdx i.toNat)) ∧
    (delete_cell st i).2.disk = st.disk ∧
    (delete_cell st i).2.notebook = some ⟨nb.cells.eraseIdx i.toNat⟩ ∧
    save_notebook (delete_cell st i).2 =
      (none, { (delete_cell st i).2 with disk := some ⟨nb.cells.eraseIdx i.toNat⟩ }) := by
  obtain ⟨nbo, cl, oc, dk⟩ := st
  dsimp only at hnb
  subst hnb
  unfold delete_cell
  dsimp only
  rw [if_neg (show ¬(i < 0 ∨ (nb.cells.length : Int) ≤ i) by omega)]
  exact ⟨rfl, rfl, rfl, rfl⟩

theorem delete_cell_not_persisted_witness :
    delete_cell wState 0 = (none, setCells wState ⟨[wCell]⟩ (([wCell] : List Cell).eraseIdx 0)) ∧
    (delete_cell wState 0).2.disk = wState.disk ∧
    (delete_cell wState 0).2.notebook = some ⟨([wCell] : List Cell).eraseIdx 0⟩ ∧
    save_notebook (delete_cell wState 0).2 =
      (none, { (delete_cell wState 0).2 with disk := some ⟨([wCell] : List Cell).eraseIdx 0⟩ }) :=
  delete_cell_not_persisted wState ⟨[wCell]⟩ 0 rfl (by decide) (by decide)

/-- C10: constructing the session with `isnew = True` deletes any
existing file first, so the session starts from a fresh empty document
(both in memory and on disk) and the previous file content is lost;
with `isnew = False` the existing file is loaded unchanged. -/
theorem init_fresh_or_load (nb0 : Notebook) (oracle : List ExecOutcome) :
    JupyterAPI_mk true (some nb0) "" oracle =
      ({ notebook := some ⟨[]⟩, client := true, original_cells := some [],
         disk := some ⟨[]⟩ }, oracle) ∧
    JupyterAPI_mk false (some nb0) "" oracle =
      ({ notebook := some nb0, client := true, original_cells := some nb0.cells,
         disk := some nb0 }, oracle) :=
  ⟨rfl, rfl⟩

/-- C3 counterexample: `insert_cell` with the malformed cell kind
`"foo"` returns the validation message as its ordinary string result —
nothing is raised — contradicting the claim that malformed parameters
are always raised and never returned as error strings. -/
theorem insert_cell_returns_validation_string :
    insert_cell wState "x" "foo" none = ("不支持的单元格类型: foo", wState) := rfl

/-- C3 (amended): malformed parameters are always detected before any
backend/connection work (the state, including the client, and the
backend oracle are untouched), but only `run_cell` raises them as
`ValueError`; `insert_cell` and `set_slideshow_type` return the
validation message as an error string instead of raising. -/
theorem validation_before_backend_work :
    (∀ (st : JState) (nb : Notebook) (oracle : List ExecOutcome) (i : Int),
      st.notebook = some nb → (i < 0 ∨ (nb.cells.length : Int) ≤ i) →
      run_cell st oracle i =
        (.exn (.valueError ("单元格索引超出范围: " ++ toString i)), st, oracle)) ∧
    (∀ (st : JState) (nb : Notebook) (oracle : List ExecOutcome) (i : Int),
      st.notebook = some nb → ¬(i < 0 ∨ (nb.cells.length : Int) ≤ i) →
      (nb.cells.getD i.toNat default).cell_type ≠ .code →
      run_cell st oracle i =
        (.exn (.valueError ("单元格不是代码类型: " ++ toString i)), st, oracle)) ∧
    (∀ (st : JState) (nb : Notebook) (code ct : String) (idx : Option Int),
      st.notebook = some nb → parseCellType ct = none →
      insert_cell st code ct idx = ("不支持的单元格类型: " ++ ct, st)) ∧
    (∀ (st : JState) (nb : Notebook) (code ct : String) (k : CellType) (i : Int),
      st.notebook = some nb → parseCellType ct = some k →
      (i < 0 ∨ (nb.cells.length : Int) < i) →
      insert_cell st code ct (some i) = ("无效的索引位置: " ++ toString i, st)) ∧
    (∀ (st : JState) (nb : Notebook) (i : Int) (t : Option String),
      st.notebook = some nb → (i < 0 ∨ (nb.cells.length : Int) ≤ i) →
      set_slideshow_type st i t =
        (some ("单元格索引超出范围: " ++ toString i), st)) ∧
    (∀ (st : JState) (nb : Notebook) (i : Int) (t : String),
      st.notebook = some nb → ¬(i < 0 ∨ (nb.cells.length : Int) ≤ i) →
      valid_slide_types.contains t = false →
      set_slideshow_type st i (some t) =
        (some ("无效的幻灯片类型: " ++ t ++
          "，有效类型为: slide, subslide, fragment, skip, notes, None"), st)) := by
  refine ⟨?_, ?_, ?_, ?_, ?_, ?_⟩
  · intro st nb oracle i hnb hi
    obtain ⟨nbo, cl, oc, dk⟩ := st
    dsimp only at hnb
    subst hnb
    unfold run_cell
    dsimp only
    rw [if_pos hi]
  · intro st nb oracle i hnb hi hct
    obtain ⟨nbo, cl, oc, dk⟩ := st
    dsimp only at hnb
    subst hnb
    unfold run_cell
    dsimp only
    rw [if_neg hi, if_pos hct]
  · intro st nb code ct idx hnb hct
    obtain ⟨nbo, cl, oc, dk⟩ := st
    dsimp only at hnb
    subst hnb
    unfold insert_cell
    dsimp only
    rw [hct]
  · intro st nb code ct k i hnb hct hi
    obtain ⟨nbo, cl, oc, dk⟩ := st
    dsimp only at hnb
    subst hnb
    unfold insert_cell
    dsimp only
    rw [hct]
    dsimp only
    rw [if_pos hi]
  · intro st nb i t hnb hi
    obtain ⟨nbo, cl, oc, dk⟩ := st
    dsimp only at hnb
    subst hnb
    unfold set_slideshow_type
    dsimp only
    rw [if_pos hi]
  · intro st nb i t hnb hi hcon
    obtain ⟨nbo, cl, oc, dk⟩ := st
    dsimp only at hnb
    subst hnb
    unfold set_slideshow_type
    dsimp only
    rw [if_neg hi]
    rw [if_neg (by simpa using hcon)]

theorem validation_before_backend_work_witness :
    run_cell wState [] 5 =
      (.exn (.valueError ("单元格索引超出范围: " ++ toString (5 : Int))), wState, []) ∧
    insert_cell wState "x" "code" (some 2) =
      ("无效的索引位置: " ++ toString (2 : Int), wState) ∧
    set_slideshow_type wState 0 (some "bogus") =
      (some ("无效的幻灯片类型: " ++ "bogus" ++
        "，有效类型为: slide, subslide, fragment, skip, notes, None"), wState) :=
  ⟨validation_before_backend_work.1 wState ⟨[wCell]⟩ [] 5 rfl (by decide),
   validation_before_backend_work.2.2.2.1 wState ⟨[wCell]⟩ "x" "code" .code 2 rfl rfl (by decide),
   validation_before_backend_work.2.2.2.2.2 wState ⟨[wCell]⟩ 0 "bogus" rfl (by decide) (by decide)⟩

/-- C1: for an open notebook and an in-range code-cell index, a
connection-lost signal (`AssertionError`) in `run_cell` makes the
session restart the connection and retry that single execution exactly
once — exactly two backend outcomes are consumed, whatever the retry
does — with the client live afterwards, and a failing retry yields a
formatted error string as the return value, never a raised exception. -/
theorem run_cell_connlost_retries_once (st : JState) (nb : Notebook)
    (i : Int) (o2 : ExecOutcome) (rest : List ExecOutcome)
    (hnb : st.notebook = some nb) (hal : BackupAligned st nb)
    (h0 : 0 ≤ i) (hi : i < (nb.cells.length : Int))
    (hcode : (nb.cells.getD i.toNat default).cell_type = .code) :
    (run_cell st (.connLost :: o2 :: rest) i).2.2 = rest ∧
    (run_cell st (.connLost :: o2 :: rest) i).2.1.client = true ∧
    (∃ s, (run_cell st (.connLost :: o2 :: rest) i).1 = .ok s) ∧
    (∀ m outs, o2 = .cellError m outs →
      (run_cell st (.connLost :: o2 :: rest) i).1 =
        .ok ("重试执行单元格失败: " ++ m)) ∧
    (o2 = .connLost →
      (run_cell st (.connLost :: o2 :: rest) i).1 = .ok "重试执行单元格失败: ") := by
  obtain ⟨nbo, cl, oc, dk⟩ := st
  dsimp only at hnb
  subst hnb
  unfold BackupAligned at hal
  dsimp only at hal
  have hlt : ¬(i < 0 ∨ (nb.cells.length : Int) ≤ i) := by omega
  have hct : ¬((nb.cells.getD i.toNat default).cell_type ≠ CellType.code) :=
    fun hne => hne hcode
  rcases o2 with ⟨outs⟩ | ⟨m, outs⟩ | _
  · rcases hal with h | h <;> subst h <;> cases cl
    all_goals
      unfold run_cell execCell start_kernel save_notebook setCells
      simp only [Bool.false_eq_true, if_false, if_true, List.headD_cons,
        List.tail_cons, Option.map, excMsg]
      rw [if_neg hlt, if_neg hct]
      refine ⟨?_, ?_, ?_, ?_, ?_⟩
      · split <;> rfl
      · split <;> rfl
      · split
        · exact ⟨_, rfl⟩
        · rename_i e heq
          exact absurd heq (get_cell_text_output_ne_exn _ _ i rfl h0
            (by simp only [List.length_set]; omega) 0 (some 3000) e)
      · intro m1 outs1 hmo
        cases hmo
      · intro hco
        cases hco
  · rcases hal with h | h <;> subst h <;> cases cl
    all_goals
      unfold run_cell execCell start_kernel save_notebook setCells
      simp only [Bool.false_eq_true, if_false, if_true, List.headD_cons,
        List.tail_cons, Option.map, excMsg]
      rw [if_neg hlt, if_neg hct]
      refine ⟨rfl, rfl, ⟨_, rfl⟩, ?_, ?_⟩
      · intro m1 outs1 hmo
        cases hmo
        rfl
      · intro hco
        cases hco
  · rcases hal with h | h <;> subst h <;> cases cl
    all_goals
      unfold run_cell execCell start_kernel save_notebook setCells
      simp only [Bool.false_eq_true, if_false, if_true, List.headD_cons,
        List.tail_cons, Option.map, excMsg]
      rw [if_neg hlt, if_neg hct]
      refine ⟨rfl, rfl, ⟨_, rfl⟩, ?_, ?_⟩
      · intro m1 outs1 hmo
        cases hmo
      · intro hco
        rw [String.append_empty]

theorem run_cell_connlost_retries_once_witness :
    (run_cell wState [.connLost, .connLost] 0).2.2 = ([] : List ExecOutcome) ∧
    (run_cell wState [.connLost, .connLost] 0).2.1.client = true ∧
    (∃ s, (run_cell wState [.connLost, .connLost] 0).1 = .ok s) ∧
    (∀ m outs, ExecOutcome.connLost = ExecOutcome.cellError m outs →
      (run_cell wState [.connLost, .connLost] 0).1 =
        .ok ("重试执行单元格失败: " ++ m)) ∧
    (ExecOutcome.connLost = ExecOutcome.connLost →
      (run_cell wState [.connLost, .connLost] 0).1 = .ok "重试执行单元格失败: ") :=
  run_cell_connlost_retries_once wState ⟨[wCell]⟩ 0 .connLost [] rfl (Or.inr rfl)
    (by decide) (by decide) rfl

/-- C2 counterexample: on a kernel execution error, `run_all_cells`
returns the formatted error string as data but does not persist the
document — the disk (empty before the call) is still empty afterwards,
refuting the claim that the document is persisted in every outcome. -/
theorem run_all_cells_error_not_persisted :
    (run_all_cells ⟨some ⟨[wCell]⟩, true, some [wCell], none⟩ [.cellError "x" []]).1 =
      .ok (some "单元格执行错误: x") ∧
    (run_all_cells ⟨some ⟨[wCell]⟩, true, some [wCell], none⟩
        [.cellError "x" []]).2.1.disk = none :=
  ⟨rfl, rfl⟩

/-- C2 (amended): `run_all_cells` persists the document exactly on the
success paths: when it returns `None` (success, possibly after the one
whole-batch restart-and-retry) the final notebook has been written to
disk; when it returns a formatted error string (kernel execution error,
or failure of the retry) the disk is left exactly as it was. -/
theorem run_all_cells_persists_iff_success (st : JState) (nb : Notebook)
    (oracle : List ExecOutcome) (hnb : st.notebook = some nb) :
    ((run_all_cells st oracle).1 = .ok none →
      ∃ nbf, (run_all_cells st oracle).2.1.notebook = some nbf ∧
        (run_all_cells st oracle).2.1.disk = some nbf) ∧
    (∀ msg, (run_all_cells st oracle).1 = .ok (some msg) →
      (run_all_cells st oracle).2.1.disk = st.disk) := by
  obtain ⟨nbo, cl, oc, dk⟩ := st
  dsimp only at hnb
  subst hnb
  cases cl <;> rcases oc with _ | ocs
  all_goals
    unfold run_all_cells start_kernel save_notebook setCells
    simp only [Bool.false_eq_true, if_false, if_true, Option.map]
    split
    · exact ⟨fun _ => ⟨_, rfl, rfl⟩, fun msg h => by simp at h⟩
    · exact ⟨fun h => by simp at h, fun msg h => rfl⟩
    · split
      · exact ⟨fun _ => ⟨_, rfl, rfl⟩, fun msg h => by simp at h⟩
      · exact ⟨fun h => by simp at h, fun msg h => rfl⟩
    · exact ⟨fun h => by simp at h, fun msg h => by simp at h⟩

/-- The window the specification describes: the character range
`[offset, offset + limit)` of the concatenated text, with a negative
offset clamped to 0 (`Int.toNat`), an offset at or past the end giving
the empty slice, and `limit = None` giving everything from the offset
onward. -/
def claimWindow (text : String) (start : Int) (limit : Option Int) : String :=
  match limit with
  | none => String.mk (text.data.drop start.toNat)
  | some l => String.mk ((text.data.drop start.toNat).take l.toNat)

theorem outputWindow_eq_claimWindow (text : String) (start : Int)
    (limit : Option Int) (hlim : ∀ l, limit = some l → 0 ≤ l) :
    outputWindow text start limit = claimWindow text start limit := by
  cases limit with
  | none =>
    simp only [outputWindow, claimWindow]
    rw [show (if start < 0 then (0 : Int) else start) = (start.toNat : Int) by
      split <;> omega]
    by_cases hle : (text.length : Int) ≤ (start.toNat : Int)
    · rw [if_pos hle]
      rw [show text.length = text.data.length from rfl] at hle
      rw [List.drop_eq_nil_of_le (by omega)]
    · rw [if_neg hle]
      rfl
  | some l =>
    have hl : 0 ≤ l := hlim l rfl
    simp only [outputWindow, claimWindow]
    rw [show (if start < 0 then (0 : Int) else start) = (start.toNat : Int) by
      split <;> omega]
    by_cases hle : (text.length : Int) ≤ (start.toNat : Int)
    · rw [if_pos hle]
      rw [show text.length = text.data.length from rfl] at hle
      rw [List.drop_eq_nil_of_le (by omega), List.take_nil]
    · rw [if_neg hle]
      unfold pySlice pySliceStop
      rw [if_neg (show ¬((start.toNat : Int) + l < 0) by omega)]
      rw [show ((start.toNat : Int) + l).toNat = start.toNat + l.toNat by omega]
      exact congrArg String.mk (take_window text.data start.toNat l.toNat)

/-- C6 counterexample: for a Markdown cell, `get_cell_text_output`
returns the empty string without any header line, while the claim (over
"any cell") would require the header reporting the full concatenated
length 0, i.e. the string "总长度: 0\n". -/
theorem get_text_output_markdown_no_header :
    get_cell_text_output ⟨some ⟨[⟨.markdown, "# t", [], none⟩]⟩, true, none, none⟩
        0 0 (some 3000) = .ok "" ∧
    get_cell_text_output ⟨some ⟨[⟨.markdown, "# t", [], none⟩]⟩, true, none, none⟩
        0 0 (some 3000) ≠ .ok "总长度: 0\n" :=
  ⟨rfl, by decide⟩

/-- C6 (amended): for an in-range Code cell and any offset, with
`limit` either `None` or nonnegative, `get_cell_text_output` returns
the header line reporting the full concatenated length of all
text-bearing output records (independent of offset and limit) followed
by the slice `[offset, offset+limit)` (`claimWindow`: negative offset
clamped to 0, offset at or past the end giving an empty slice, `None`
meaning everything from the offset onward); an in-range non-Code cell
yields the bare empty string instead. -/
theorem get_text_output_header_window (st : JState) (nb : Notebook)
    (i start : Int) (limit : Option Int)
    (hnb : st.notebook = some nb) (h0 : 0 ≤ i) (hi : i < (nb.cells.length : Int))
    (hlim : ∀ l, limit = some l → 0 ≤ l) :
    ((nb.cells.getD i.toNat default).cell_type = .code →
      get_cell_text_output st i start limit =
        .ok ("总长度: " ++
          toString (concatTextOutput (nb.cells.getD i.toNat default).outputs).length ++
          "\n" ++
          claimWindow (concatTextOutput (nb.cells.getD i.toNat default).outputs)
            start limit)) ∧
    ((nb.cells.getD i.toNat default).cell_type ≠ .code →
      get_cell_text_output st i start limit = .ok "") := by
  constructor
  · intro hcode
    rw [get_cell_text_output_code st nb i hnb h0 hi hcode start limit]
    rw [outputWindow_eq_claimWindow _ _ _ hlim]
  · intro hct
    obtain ⟨nbo, cl, oc, dk⟩ := st
    dsimp only at hnb
    subst hnb
    unfold get_cell_text_output
    dsimp only
    rw [if_neg (show ¬(i < 0 ∨ (nb.cells.length : Int) ≤ i) by omega)]
    rw [if_pos hct]

theorem get_text_output_header_window_witness :
    ((([⟨.code, "", [.stream "stdout" "hello"], none⟩] : List Cell).getD
        (0 : Int).toNat default).cell_type = .code →
      get_cell_text_output
          ⟨some ⟨[⟨.code, "", [.stream "stdout" "hello"], none⟩]⟩, true, none, none⟩
          0 (-2) (some 2) =
        .ok ("总长度: " ++
          toString (concatTextOutput
            (([⟨.code, "", [.stream "stdout" "hello"], none⟩] : List Cell).getD
              (0 : Int).toNat default).outputs).length ++
          "\n" ++
          claimWindow (concatTextOutput
            (([⟨.code, "", [.stream "stdout" "hello"], none⟩] : List Cell).getD
              (0 : Int).toNat default).outputs) (-2) (some 2))) ∧
    ((([⟨.code, "", [.stream "stdout" "hello"], none⟩] : List Cell).getD
        (0 : Int).toNat default).cell_type ≠ .code →
      get_cell_text_output
          ⟨some ⟨[⟨.code, "", [.stream "stdout" "hello"], none⟩]⟩, true, none, none⟩
          0 (-2) (some 2) = .ok "") :=
  get_text_output_header_window
    ⟨some ⟨[⟨.code, "", [.stream "stdout" "hello"], none⟩]⟩, true, none, none⟩
    ⟨[⟨.code, "", [.stream "stdout" "hello"], none⟩]⟩ 0 (-2) (some 2)
    rfl (by decide) (by decide) (fun l hl => by cases hl; decide)

theorem run_all_cells_persists_iff_success_witness :
    ((run_all_cells wState [.ok []]).1 = .ok none →
      ∃ nbf, (run_all_cells wState [.ok []]).2.1.notebook = some nbf ∧
        (run_all_cells wState [.ok []]).2.1.disk = some nbf) ∧
    (∀ msg, (run_all_cells wState [.ok []]).1 = .ok (some msg) →
      (run_all_cells wState [.ok []]).2.1.disk = wState.disk) :=
  run_all_cells_persists_iff_success wState ⟨[wCell]⟩ [.ok []] rfl

/-- C8 counterexample: `insert_and_execute_cell` does not validate an
explicit index the way `insert_cell` does: on a one-cell document,
index 5 makes `insert_cell` fail validation without mutating, while
`insert_and_execute_cell` clamps the index (Python `list.insert`) and
inserts the cell at the end. -/
theorem insert_and_execute_no_index_validation :
    (insert_and_execute_cell wState [] "note" "markdown" (some 5)).2.1.notebook =
      some ⟨[wCell, ⟨.markdown, "note", [], none⟩]⟩ ∧
    insert_cell wState "note" "markdown" (some 5) =
      ("无效的索引位置: " ++ toString (5 : Int), wState) :=
  ⟨rfl, rfl⟩

/-- C8 (amended): `insert_and_execute_cell` raises `ValueError` on an
unknown cell kind (after any on-demand kernel start), performs no
index-range validation — the insertion position is `insertIndexPos`:
append for `None`, Python clamped `list.insert` otherwise — and for a
Code cell executes the inserted cell with the retry-once-on-disconnect
policy, swallowing both a kernel execution error and a failure of the
retry: the call still returns the inserted cell and the insertion is
persisted, with exactly two backend outcomes consumed. -/
theorem insert_and_execute_clamps_and_retries (st : JState) (nb : Notebook)
    (code : String) (idx : Option Int) (o2 : ExecOutcome) (rest : List ExecOutcome)
    (hnb : st.notebook = some nb) (hal : BackupAligned st nb) :
    (∀ ct, parseCellType ct = none →
      insert_and_execute_cell st (.connLost :: o2 :: rest) code ct idx =
        (.exn (.valueError ("不支持的单元格类型: " ++ ct)),
         if st.client then st else start_kernel st, .connLost :: o2 :: rest)) ∧
    (∃ outs,
      insert_and_execute_cell st (.connLost :: o2 :: rest) code "code" idx =
        (.ok ⟨.code, code, outs, none⟩,
         ⟨some ⟨nb.cells.insertIdx (insertIndexPos nb.cells.length idx)
            ⟨.code, code, outs, none⟩⟩,
          true,
          some (nb.cells.insertIdx (insertIndexPos nb.cells.length idx)
            ⟨.code, code, outs, none⟩),
          some ⟨nb.cells.insertIdx (insertIndexPos nb.cells.length idx)
            ⟨.code, code, outs, none⟩⟩⟩,
         rest)) := by
  obtain ⟨nbo, cl, oc, dk⟩ := st
  dsimp only at hnb
  subst hnb
  unfold BackupAligned at hal
  dsimp only at hal
  have hpos : insertIndexPos nb.cells.length idx ≤ nb.cells.length :=
    insertIndexPos_le _ _
  constructor
  · intro ct hct
    unfold insert_and_execute_cell
    dsimp only
    rw [hct]
  · rcases o2 with ⟨outs⟩ | ⟨m, outs⟩ | _
    · refine ⟨outs, ?_⟩
      rcases hal with h | h <;> subst h <;> cases cl
      all_goals
        unfold insert_and_execute_cell execCell start_kernel save_notebook setCells
        simp only [Bool.false_eq_true, if_false, if_true, List.headD_cons,
          List.tail_cons, Option.map]
        rw [show parseCellType "code" = some CellType.code from rfl]
        dsimp only
        rw [getD_insertIdx_self _ _ _ hpos]
        simp only [newCellOf]
        rw [insertIdx_set_self _ _ _ _ hpos]
        rw [getD_insertIdx_self _ _ _ hpos]
    · refine ⟨outs, ?_⟩
      rcases hal with h | h <;> subst h <;> cases cl
      all_goals
        unfold insert_and_execute_cell execCell start_kernel save_notebook setCells
        simp only [Bool.false_eq_true, if_false, if_true, List.headD_cons,
          List.tail_cons, Option.map]
        rw [show parseCellType "code" = some CellType.code from rfl]
        dsimp only
        rw [getD_insertIdx_self _ _ _ hpos]
        simp only [newCellOf]
        rw [insertIdx_set_self _ _ _ _ hpos]
        rw [getD_insertIdx_self _ _ _ hpos]
    · refine ⟨[], ?_⟩
      rcases hal with h | h <;> subst h <;> cases cl
      all_goals
        unfold insert_and_execute_cell execCell start_kernel save_notebook setCells
        simp only [Bool.false_eq_true, if_false, if_true, List.headD_cons,
          List.tail_cons, Option.map]
        rw [show parseCellType "code" = some CellType.code from rfl]
        dsimp only
        simp only [newCellOf]
        rw [getD_insertIdx_self _ _ _ hpos]

theorem insert_and_execute_clamps_and_retries_witness :
    (∀ ct, parseCellType ct = none →
      insert_and_execute_cell wState [.connLost, .connLost] "z=3" ct (some 7) =
        (.exn (.valueError ("不支持的单元格类型: " ++ ct)),
         if wState.client then wState else start_kernel wState,
         [.connLost, .connLost])) ∧
    (∃ outs,
      insert_and_execute_cell wState [.connLost, .connLost] "z=3" "code" (some 7) =
        (.ok ⟨.code, "z=3", outs, none⟩,
         ⟨some ⟨([wCell] : List Cell).insertIdx
            (insertIndexPos ([wCell] : List Cell).length (some 7))
            ⟨.code, "z=3", outs, none⟩⟩,
          true,
          some (([wCell] : List Cell).insertIdx
            (insertIndexPos ([wCell] : List Cell).length (some 7))
            ⟨.code, "z=3", outs, none⟩),
          some ⟨([wCell] : List Cell).insertIdx
            (insertIndexPos ([wCell] : List Cell).length (some 7))
            ⟨.code, "z=3", outs, none⟩⟩⟩,
         [])) :=
  insert_and_execute_clamps_and_retries wState ⟨[wCell]⟩ "z=3" (some 7)
    .connLost [] rfl (Or.inr rfl)

/-- C5: for an open notebook, if position `j` holds the first
out-of-range index of the list (all earlier entries are in range) and
the backend raises nothing (every consulted outcome is a success), then
`execute_cells_by_indices` returns `success := false` with the error
message naming that index, and `client.execute_cell` was invoked only
on indices among the first `j` entries — no cell at or after that
point in the list is executed.  In particular, `[5]` on a 3-cell
document (`j = 0`) returns `success := false`, an error mentioning
index 5, and executes no cell. -/
theorem execute_cells_by_indices_stops_at_oor (st : JState) (nb : Notebook)
    (indices : List Int) (oracle : List ExecOutcome) (j : Nat)
    (hnb : st.notebook = some nb) (hal : BackupAligned st nb)
    (hok : oracle.all ExecOutcome.isOk = true)
    (hj : j < indices.length)
    (hoor : indices.getD j 0 < 0 ∨ (nb.cells.length : Int) ≤ indices.getD j 0)
    (hbefore : ∀ k, k < j → 0 ≤ indices.getD k 0 ∧
      indices.getD k 0 < (nb.cells.length : Int)) :
    ∃ r audit, (execute_cells_by_indices st oracle indices).1 = .ok (r, audit) ∧
      r.success = false ∧
      r.error = some ("单元格索引超出范围: " ++ toString (indices.getD j 0)) ∧
      ∀ x ∈ audit, x ∈ indices.take j := by
  obtain ⟨nbo, cl, oc, dk⟩ := st
  dsimp only at hnb
  subst hnb
  unfold BackupAligned at hal
  dsimp only at hal
  have hst0 : ∃ nbX,
      ((if cl = true then (⟨some nb, cl, oc, dk⟩ : JState)
        else start_kernel ⟨some nb, cl, oc, dk⟩).notebook = some nbX) ∧
      nbX.cells = nb.cells := by
    cases cl
    · rcases hal with h | h <;> subst h <;> exact ⟨_, rfl, rfl⟩
    · exact ⟨nb, rfl, rfl⟩
  obtain ⟨nbX, hnbX, hcellsX⟩ := hst0
  unfold execute_cells_by_indices
  dsimp only
  obtain ⟨c1, c2, c3, c4, c5⟩ :=
    execIndicesLoop_oor indices j _ nbX oracle
      { success := true, last_index := none, error := none, warnings := [],
        output := none }
      [] hnbX hok hj
      (by rw [hcellsX]; exact hoor)
      (by rw [hcellsX]; exact hbefore)
  obtain ⟨nb1, hnb1, hlen1⟩ := c5
  have hlen2 : nb1.cells.length = nb.cells.length := by rw [hlen1, hcellsX]
  rcases c4 with hL | ⟨li, hli, hmem⟩
  · obtain ⟨out, hfin⟩ := execIndicesFinish_spec _ nb1 hnb1 (Or.inl hL)
    rw [hfin]
    refine ⟨_, _, rfl, c1, c2, ?_⟩
    intro x hx
    exact (c3 x hx).resolve_left (List.not_mem_nil x)
  · obtain ⟨k, hk1, hk2, hk3⟩ := mem_take_getD indices j li hmem
    have hb := hbefore k hk1
    rw [hk3] at hb
    obtain ⟨out, hfin⟩ := execIndicesFinish_spec _ nb1 hnb1
      (Or.inr ⟨li, hli, by omega, by omega⟩)
    rw [hfin]
    refine ⟨_, _, rfl, c1, c2, ?_⟩
    intro x hx
    exact (c3 x hx).resolve_left (List.not_mem_nil x)

/-- Sample three-cell cell list for the C5 witness. -/
def w3Cells : List Cell := [wCell, ⟨.markdown, "# t", [], none⟩, wCell]

/-- Sample three-cell session state for the C5 witness. -/
def w3State : JState := ⟨some ⟨w3Cells⟩, true, some w3Cells, some ⟨w3Cells⟩⟩

theorem execute_cells_by_indices_stops_at_oor_witness :
    ∃ r audit, (execute_cells_by_indices w3State [] [5]).1 = .ok (r, audit) ∧
      r.success = false ∧
      r.error = some ("单元格索引超出范围: " ++ toString (([5] : List Int).getD 0 0)) ∧
      ∀ x ∈ audit, x ∈ ([5] : List Int).take 0 :=
  execute_cells_by_indices_stops_at_oor w3State ⟨w3Cells⟩ [5] [] 0 rfl (Or.inr rfl)
    rfl (by decide) (by decide) (fun k hk => absurd hk (Nat.not_lt_zero k))

end JupyterMCP
